import Mathlib

/-
  Verification of the `onlytactics` training pipeline.

  Shallow embedding of the four Python source files:
    * src/training/dataset.py  — CSV schema, `SailingDataset`, `load_and_split`
    * src/training/model.py    — the `SailingAI` multilayer perceptron
    * src/training/train.py    — the epoch loop with early stopping and checkpointing
    * src/training/export_onnx.py — checkpoint loading and ONNX export

  Numeric values are embedded as rationals (`ℚ`); external library calls
  (numpy's seeded permutation, torch's `DataLoader` batching, `load_state_dict`
  and `torch.onnx.export`) are modelled by executable Lean definitions that are
  faithful to the behaviour the source relies on, documented at each definition.
-/

namespace OnlyTactics

/-! ### Schema — src/training/dataset.py, lines 8-22 -/

/-- `FEATURE_COLS` from dataset.py: the fixed ordered list of 19 input columns. -/
def FEATURE_COLS : List String :=
  ["twaSin", "twaCos", "windSpeed", "boatSpeed",
   "bearingToMarkSin", "bearingToMarkCos", "distToMark",
   "legUpwind", "legDownwind", "tack", "raceTime",
   "stallTimer", "tackTimer",
   "near1Bearing", "near1Dist",
   "near2Bearing", "near2Dist",
   "near3Bearing", "near3Dist"]

/-- `TARGET_COLS` from dataset.py: the two regression target columns. -/
def TARGET_COLS : List String := ["target_twa_sin", "target_twa_cos"]

/-- `INPUT_DIM = len(FEATURE_COLS)` (= 19). -/
def INPUT_DIM : Nat := FEATURE_COLS.length

/-- `OUTPUT_DIM = len(TARGET_COLS)` (= 2). -/
def OUTPUT_DIM : Nat := TARGET_COLS.length

/-- One row of the loaded CSV, as `SailingDataset.__getitem__` returns it:
a features vector and a targets vector (values embedded as rationals). -/
structure Sample where
  features : List ℚ
  targets : List ℚ
deriving DecidableEq

/-- Embedding of `torch.utils.data.Subset(ds, indices)`: a read-only view of a
dataset through a stored index list, as built at dataset.py lines 46-47. -/
structure Subset where
  dataset : List Sample
  indices : List Nat
deriving DecidableEq

/-! ### Seeded permutation — model of `np.random.default_rng(seed).permutation(n)`
(dataset.py lines 40-41).

numpy's generator is an external library; the pipeline relies on exactly two of
its properties: the result is a permutation of `[0, n)`, and it is a pure
function of `(seed, n)` (a fresh generator is constructed from `seed` on every
call, so no hidden state survives between calls).  We model it executably as a
key sort: each index gets a pseudorandom 64-bit key derived from the seed by a
linear congruential generator (with the explicit `% 2 ^ 64` wrap of 64-bit
arithmetic), and `[0, n)` is sorted by key.  Sorting a duplicate-free list is a
permutation of it, which is all the downstream proofs use. -/

/-- One step of a 64-bit linear congruential generator (Knuth's MMIX
multiplier), wrapping at `2 ^ 64` as the underlying machine arithmetic does. -/
def rngNext (s : Nat) : Nat :=
  (6364136223846793005 * s + 1442695040888963407) % 2 ^ 64

/-- Pseudorandom sort key of index `i` under `seed`. -/
def rngKey (seed i : Nat) : Nat := rngNext (rngNext seed + i)

/-- Total order on indices induced by their pseudorandom keys (ties broken by
the index itself, so the order is antisymmetric). -/
def keyOrder (seed : Nat) (a b : Nat) : Prop :=
  rngKey seed a < rngKey seed b ∨ (rngKey seed a = rngKey seed b ∧ a ≤ b)

instance keyOrder.decidableRel (seed : Nat) : DecidableRel (keyOrder seed) :=
  fun a b => by unfold keyOrder; infer_instance

/-- Model of `rng.permutation(n)` for `rng = np.random.default_rng(seed)`:
a deterministic pseudorandom rearrangement of `[0, n)` depending only on
`(seed, n)`. -/
def npPermutation (seed n : Nat) : List Nat :=
  List.insertionSort (keyOrder seed) (List.range n)

theorem npPermutation_perm (seed n : Nat) :
    (npPermutation seed n).Perm (List.range n) :=
  List.perm_insertionSort (keyOrder seed) (List.range n)

theorem npPermutation_length (seed n : Nat) :
    (npPermutation seed n).length = n := by
  have h := (npPermutation_perm seed n).length_eq
  simpa using h

theorem npPermutation_nodup (seed n : Nat) :
    (npPermutation seed n).Nodup :=
  ((npPermutation_perm seed n).symm).nodup (List.nodup_range n)

theorem npPermutation_mem (seed n i : Nat) :
    i ∈ npPermutation seed n ↔ i < n := by
  rw [(npPermutation_perm seed n).mem_iff, List.mem_range]

/-! ### `load_and_split` — dataset.py lines 37-49.

```python
def load_and_split(csv_path, val_fraction=0.2, seed=42):
    ds = SailingDataset(csv_path)
    n = len(ds)
    rng = np.random.default_rng(seed)
    indices = rng.permutation(n)
    split = int(n * (1 - val_fraction))
    train_idx = indices[:split]
    val_idx = indices[split:]
    train_ds = torch.utils.data.Subset(ds, train_idx.tolist())
    val_ds = torch.utils.data.Subset(ds, val_idx.tolist())
    return train_ds, val_ds
```

The loaded CSV is embedded as the row list `data`; `n * (1 - val_fraction)` is
exact rational arithmetic and Python's `int(·)` truncation coincides with
`⌊·⌋.toNat` on the nonnegative values arising for `val_fraction ∈ [0, 1]`. -/

/-- Embedding of `load_and_split`: permute `[0, n)` with the seeded generator,
split at `int(n * (1 - val_fraction))`, and wrap both index slices as `Subset`
views over the same dataset. -/
def load_and_split (data : List Sample) (val_fraction : ℚ := 1/5) (seed : Nat := 42) :
    Subset × Subset :=
  let n := data.length
  let indices := npPermutation seed n
  let split := (⌊(n : ℚ) * (1 - val_fraction)⌋).toNat
  (⟨data, indices.take split⟩, ⟨data, indices.drop split⟩)

theorem load_and_split_fst_indices (data : List Sample) (vf : ℚ) (seed : Nat) :
    (load_and_split data vf seed).1.indices
      = (npPermutation seed data.length).take
          (⌊(data.length : ℚ) * (1 - vf)⌋).toNat := rfl

theorem load_and_split_snd_indices (data : List Sample) (vf : ℚ) (seed : Nat) :
    (load_and_split data vf seed).2.indices
      = (npPermutation seed data.length).drop
          (⌊(data.length : ℚ) * (1 - vf)⌋).toNat := rfl

/-- For nonnegative `val_fraction` the split point is at most `n`. -/
theorem split_le_length (n : Nat) (vf : ℚ) (h0 : 0 ≤ vf) :
    (⌊(n : ℚ) * (1 - vf)⌋).toNat ≤ n := by
  have hle : (n : ℚ) * (1 - vf) ≤ (n : ℚ) := by nlinarith [Nat.cast_nonneg (α := ℚ) n]
  have h3 : ⌊(n : ℚ) * (1 - vf)⌋ ≤ ⌊(n : ℚ)⌋ := Int.floor_le_floor hle
  rw [Int.floor_natCast] at h3
  omega

/-- C1: for every loaded dataset, the train and validation views returned by
`load_and_split` have index lists whose lengths sum to the dataset length, are
disjoint, and jointly cover exactly the full index range `[0, n)`. -/
theorem load_and_split_partition (data : List Sample) (vf : ℚ) (seed : Nat) :
    (load_and_split data vf seed).1.indices.length
        + (load_and_split data vf seed).2.indices.length = data.length ∧
    (load_and_split data vf seed).1.indices.Disjoint
        (load_and_split data vf seed).2.indices ∧
    ∀ i, (i ∈ (load_and_split data vf seed).1.indices
        ∨ i ∈ (load_and_split data vf seed).2.indices) ↔ i < data.length := by
  rw [load_and_split_fst_indices, load_and_split_snd_indices]
  set l := npPermutation seed data.length with hl
  set k := (⌊(data.length : ℚ) * (1 - vf)⌋).toNat with hk
  refine ⟨?_, ?_, ?_⟩
  · have h := congrArg List.length (List.take_append_drop k l)
    rw [List.length_append] at h
    rw [h, hl, npPermutation_length]
  · exact List.disjoint_take_drop (npPermutation_nodup seed data.length) le_rfl
  · intro i
    rw [← List.mem_append, List.take_append_drop, hl, npPermutation_mem]

/-- C2: the train view consists of exactly the first
`⌊n * (1 - val_fraction)⌋` entries of the seeded permutation of `[0, n)` and
the validation view of the remaining entries; their lengths are the split
point and `n` minus the split point respectively. -/
theorem load_and_split_take_drop (data : List Sample) (vf : ℚ) (seed : Nat)
    (h0 : 0 ≤ vf) (h1 : vf ≤ 1) :
    (load_and_split data vf seed).1.indices
        = (npPermutation seed data.length).take
            (⌊(data.length : ℚ) * (1 - vf)⌋).toNat ∧
    (load_and_split data vf seed).2.indices
        = (npPermutation seed data.length).drop
            (⌊(data.length : ℚ) * (1 - vf)⌋).toNat ∧
    (load_and_split data vf seed).1.indices.length
        = (⌊(data.length : ℚ) * (1 - vf)⌋).toNat ∧
    (load_and_split data vf seed).2.indices.length
        = data.length - (⌊(data.length : ℚ) * (1 - vf)⌋).toNat := by
  refine ⟨load_and_split_fst_indices data vf seed,
          load_and_split_snd_indices data vf seed, ?_, ?_⟩
  · rw [load_and_split_fst_indices, List.length_take, npPermutation_length]
    exact min_eq_left (split_le_length data.length vf h0)
  · rw [load_and_split_snd_indices, List.length_drop, npPermutation_length]

/-- The all-zero sample used for concrete test datasets. -/
def sample0 : Sample := ⟨List.replicate 19 0, List.replicate 2 0⟩

/-- A sample with different feature values, for data-independence tests. -/
def sample1 : Sample := ⟨List.replicate 19 1, List.replicate 2 1⟩

/-- A concrete 1000-row dataset (the end-to-end scenario of the spec). -/
def csv1000 : List Sample := List.replicate 1000 sample0

/-- Witness for C2: on the 1000-row dataset with the default
`val_fraction = 0.2` and `seed = 42`, the train view has 800 indices and the
validation view 200. -/
theorem load_and_split_take_drop_witness :
    (0 : ℚ) ≤ 1/5 ∧ (1 : ℚ)/5 ≤ 1 ∧
    (load_and_split csv1000 (1/5) 42).1.indices.length = 800 ∧
    (load_and_split csv1000 (1/5) 42).2.indices.length = 200 := by
  have h := load_and_split_take_drop csv1000 (1/5) 42 (by norm_num) (by norm_num)
  have hlen : csv1000.length = 1000 := by
    unfold csv1000; exact List.length_replicate 1000 sample0
  have hfloor : (⌊(csv1000.length : ℚ) * (1 - 1/5)⌋).toNat = 800 := by
    rw [hlen]; norm_num; rfl
  refine ⟨by norm_num, by norm_num, ?_, ?_⟩
  · rw [h.2.2.1, hfloor]
  · rw [h.2.2.2, hfloor, hlen]

/-- C3: `load_and_split` is a pure function of the loaded data, the
validation fraction and the seed — two invocations with equal inputs return
equal train and validation views (the generator is re-seeded inside every
call, so no state is shared between calls). -/
theorem load_and_split_deterministic (d₁ d₂ : List Sample) (vf₁ vf₂ : ℚ)
    (s₁ s₂ : Nat) (hd : d₁ = d₂) (hv : vf₁ = vf₂) (hs : s₁ = s₂) :
    load_and_split d₁ vf₁ s₁ = load_and_split d₂ vf₂ s₂ := by
  rw [hd, hv, hs]

/-- Witness for C3: two invocations on the concrete 1000-row dataset with the
default fraction and seed agree. -/
theorem load_and_split_deterministic_witness :
    csv1000 = csv1000 ∧
    load_and_split csv1000 (1/5) 42 = load_and_split csv1000 (1/5) 42 :=
  ⟨rfl, load_and_split_deterministic csv1000 csv1000 (1/5) (1/5) 42 42 rfl rfl rfl⟩

/-- C10: the index split depends only on the dataset's row count, the seed and
the fraction, never on the stored values: two datasets of equal length receive
identical train and validation index lists. -/
theorem load_and_split_indices_depend_only_on_length (d₁ d₂ : List Sample)
    (vf : ℚ) (seed : Nat) (h : d₁.length = d₂.length) :
    (load_and_split d₁ vf seed).1.indices = (load_and_split d₂ vf seed).1.indices ∧
    (load_and_split d₁ vf seed).2.indices = (load_and_split d₂ vf seed).2.indices := by
  rw [load_and_split_fst_indices, load_and_split_fst_indices,
      load_and_split_snd_indices, load_and_split_snd_indices, h]
  exact ⟨rfl, rfl⟩

/-- A 5-row all-zero dataset. -/
def csvZeros5 : List Sample := List.replicate 5 sample0

/-- A 5-row all-one dataset: same length as `csvZeros5`, different values. -/
def csvOnes5 : List Sample := List.replicate 5 sample1

/-- Witness for C10: the all-zero and all-one 5-row datasets differ in content
but receive identical train and validation index lists. -/
theorem load_and_split_indices_depend_only_on_length_witness :
    csvZeros5.length = csvOnes5.length ∧
    (load_and_split csvZeros5 (1/5) 42).1.indices
        = (load_and_split csvOnes5 (1/5) 42).1.indices ∧
    (load_and_split csvZeros5 (1/5) 42).2.indices
        = (load_and_split csvOnes5 (1/5) 42).2.indices :=
  ⟨by simp [csvZeros5, csvOnes5],
   load_and_split_indices_depend_only_on_length csvZeros5 csvOnes5 (1/5) 42
     (by simp [csvZeros5, csvOnes5])⟩

/-! ### Trainer — src/training/train.py, lines 31-76.

The epoch loop is embedded with its numeric inputs abstracted: `losses e` is
the average validation loss the epoch-`e` evaluation produces and `params e`
the (flattened) parameter vector the model holds at the end of epoch `e`; both
come from untracked floating-point computation, while the control flow —
best-loss tracking, checkpoint writes, the stall counter and the early-stop
break — is modelled exactly as written. -/

/-- Trainer bookkeeping state (train.py lines 31-32, mutated at lines 66-76):
the best validation loss so far (`none` embeds the initial `float("inf")`),
the early-stopping stall counter `patience_counter`, the epoch that last
improved, and the log of checkpoint writes (`torch.save` calls, most recent
first) standing for the checkpoint file's history. -/
structure TrainState where
  best : Option ℚ
  stall : Nat
  bestEpoch : Nat
  saves : List (Nat × List ℚ)
deriving DecidableEq

/-- State before epoch 1: `best_val_loss = float("inf")`,
`patience_counter = 0`, no checkpoint written. -/
def initState : TrainState := ⟨none, 0, 0, []⟩

/-- The improvement test `avg_val < best_val_loss` (train.py line 66); every
finite loss beats the initial `float("inf")`. -/
def improves (avg : ℚ) : Option ℚ → Bool
  | none => true
  | some b => avg < b

/-- One epoch's bookkeeping (train.py lines 66-76): on strict improvement the
best loss is updated, the stall counter reset to 0 and a checkpoint of the
current parameters persisted; otherwise only the stall counter is incremented
and the checkpoint log is untouched. -/
def epochUpdate (e : Nat) (avg : ℚ) (p : List ℚ) (s : TrainState) : TrainState :=
  if improves avg s.best then ⟨some avg, 0, e, (e, p) :: s.saves⟩
  else ⟨s.best, s.stall + 1, s.bestEpoch, s.saves⟩

/-- Outcome of a training run: final bookkeeping state, the last epoch the
loop executed, and whether it exited through the early-stopping `break`. -/
structure TrainResult where
  state : TrainState
  lastEpoch : Nat
  stoppedEarly : Bool
deriving DecidableEq

/-- The epoch loop `for epoch in range(1, args.epochs + 1)` (train.py lines
34-76).  `fuel` is the number of epochs still available and `e` the current
epoch number.  As in the source, the `patience_counter >= args.patience`
break is checked only on non-improving epochs. -/
def runEpochs (losses : Nat → ℚ) (params : Nat → List ℚ) (patience : Nat) :
    Nat → Nat → TrainState → TrainResult
  | 0, e, s => ⟨s, e - 1, false⟩
  | fuel + 1, e, s =>
    let s' := epochUpdate e (losses e) (params e) s
    if improves (losses e) s.best then
      runEpochs losses params patience fuel (e + 1) s'
    else if patience ≤ s'.stall then ⟨s', e, true⟩
    else runEpochs losses params patience fuel (e + 1) s'

/-- `train(args)` restricted to its epoch-loop control flow: run epochs
1..`maxEpochs` from the initial state. -/
def train (losses : Nat → ℚ) (params : Nat → List ℚ)
    (patience maxEpochs : Nat) : TrainResult :=
  runEpochs losses params patience maxEpochs 1 initState

/-- Loop invariant of the epoch loop: entering epoch `e` with
`bestEpoch + stall + 1 = e` and `stall < patience`, the loop exits at an
epoch at most `bestEpoch + patience` (for the final `bestEpoch`) and at most
`e + fuel - 1`. -/
theorem runEpochs_lastEpoch_bound (losses : Nat → ℚ) (params : Nat → List ℚ)
    (patience : Nat) (hp : 1 ≤ patience) :
    ∀ fuel e s, s.bestEpoch + s.stall + 1 = e → s.stall < patience →
      (runEpochs losses params patience fuel e s).lastEpoch
          ≤ (runEpochs losses params patience fuel e s).state.bestEpoch + patience ∧
      (runEpochs losses params patience fuel e s).lastEpoch ≤ e + fuel - 1 := by
  intro fuel
  induction fuel with
  | zero =>
    intro e s hinv hstall
    simp only [runEpochs]
    omega
  | succ n ih =>
    intro e s hinv hstall
    simp only [runEpochs]
    by_cases himp : improves (losses e) s.best
    · rw [if_pos himp]
      have hup : epochUpdate e (losses e) (params e) s
          = ⟨some (losses e), 0, e, (e, params e) :: s.saves⟩ := by
        unfold epochUpdate; rw [if_pos himp]
      rw [hup]
      have h := ih (e + 1) ⟨some (losses e), 0, e, (e, params e) :: s.saves⟩
        (by simp) (show 0 < patience by omega)
      exact ⟨h.1, by omega⟩
    · rw [if_neg himp]
      have hup : epochUpdate e (losses e) (params e) s
          = ⟨s.best, s.stall + 1, s.bestEpoch, s.saves⟩ := by
        unfold epochUpdate
        rw [if_neg himp]
      rw [hup]
      by_cases hbreak : patience ≤ s.stall + 1
      · rw [if_pos hbreak]
        constructor
        · show e ≤ s.bestEpoch + patience
          omega
        · show e ≤ e + (n + 1) - 1
          omega
      · rw [if_neg hbreak]
        have h := ih (e + 1) ⟨s.best, s.stall + 1, s.bestEpoch, s.saves⟩
          (show s.bestEpoch + (s.stall + 1) + 1 = e + 1 by omega)
          (show s.stall + 1 < patience by omega)
        exact ⟨h.1, by omega⟩

/-- C4: with `patience ≥ 1`, a training run always terminates at an epoch no
greater than the epoch of the best validation loss plus `patience`, and never
beyond `maxEpochs`: once `patience` consecutive epochs fail to improve the
best, the stall counter triggers the early-stopping break. -/
theorem train_early_stopping (losses : Nat → ℚ) (params : Nat → List ℚ)
    (patience maxEpochs : Nat) (hp : 1 ≤ patience) :
    (train losses params patience maxEpochs).lastEpoch
        ≤ (train losses params patience maxEpochs).state.bestEpoch + patience ∧
    (train losses params patience maxEpochs).lastEpoch ≤ maxEpochs := by
  have h := runEpochs_lastEpoch_bound losses params patience hp maxEpochs 1 initState
    (by simp [initState]) (by simp [initState]; omega)
  unfold train
  exact ⟨h.1, by omega⟩

/-- Witness for C4: with constant validation loss, patience 2 and 10 epochs,
the bound holds at the concrete run. -/
theorem train_early_stopping_witness :
    1 ≤ 2 ∧
    (train (fun _ => 1) (fun _ => []) 2 10).lastEpoch
        ≤ (train (fun _ => 1) (fun _ => []) 2 10).state.bestEpoch + 2 ∧
    (train (fun _ => 1) (fun _ => []) 2 10).lastEpoch ≤ 10 := by
  have h := train_early_stopping (fun _ => 1) (fun _ => []) 2 10 (by norm_num)
  exact ⟨by norm_num, h.1, h.2⟩

/-- C5: in every epoch, a checkpoint of the current parameters is persisted
(a new entry appears in the write log) iff the average validation loss
strictly improves on the best seen, in which case the stall counter is reset
to 0 and the best loss updated; on a non-improving epoch the checkpoint log is
untouched, the stall counter incremented and the best loss unchanged. -/
theorem epochUpdate_checkpoint_iff (e : Nat) (avg : ℚ) (p : List ℚ)
    (s : TrainState) :
    (improves avg s.best = true →
        (epochUpdate e avg p s).saves = (e, p) :: s.saves ∧
        (epochUpdate e avg p s).stall = 0 ∧
        (epochUpdate e avg p s).best = some avg) ∧
    (improves avg s.best = false →
        (epochUpdate e avg p s).saves = s.saves ∧
        (epochUpdate e avg p s).stall = s.stall + 1 ∧
        (epochUpdate e avg p s).best = s.best) := by
  constructor <;> intro h <;> simp [epochUpdate, h]

/-- Witness for C5: epoch 1 from the initial state improves (finite loss
beats infinity) and writes the first checkpoint; an epoch whose loss 1 does
not beat a best of 0 leaves the log untouched and bumps the stall counter. -/
theorem epochUpdate_checkpoint_iff_witness :
    improves 1 initState.best = true ∧
    (epochUpdate 1 1 [] initState).saves = [(1, ([] : List ℚ))] ∧
    (epochUpdate 1 1 [] initState).stall = 0 ∧
    improves 1 (some 0) = false ∧
    (epochUpdate 2 1 [] ⟨some 0, 3, 1, [(1, [])]⟩).saves = [(1, ([] : List ℚ))] ∧
    (epochUpdate 2 1 [] ⟨some 0, 3, 1, [(1, [])]⟩).stall = 4 := by
  have h1 := (epochUpdate_checkpoint_iff 1 1 [] initState).1 (by decide)
  have h2 := (epochUpdate_checkpoint_iff 2 1 [] ⟨some 0, 3, 1, [(1, [])]⟩).2 (by decide)
  exact ⟨by decide, h1.1, h1.2.1, by decide, h2.1, h2.2.1⟩

/-- Once the checkpoint log is nonempty it stays nonempty through the rest of
the loop (checkpoints are only ever added, never removed). -/
theorem runEpochs_saves_nonempty (losses : Nat → ℚ) (params : Nat → List ℚ)
    (patience : Nat) :
    ∀ fuel e s, s.saves ≠ [] →
      (runEpochs losses params patience fuel e s).state.saves ≠ [] := by
  intro fuel
  induction fuel with
  | zero =>
    intro e s h
    simpa [runEpochs] using h
  | succ n ih =>
    intro e s h
    have hup : (epochUpdate e (losses e) (params e) s).saves ≠ [] := by
      unfold epochUpdate
      split
      · simp
      · simpa using h
    simp only [runEpochs]
    by_cases himp : improves (losses e) s.best
    · rw [if_pos himp]
      exact ih _ _ hup
    · rw [if_neg himp]
      by_cases hbreak : patience ≤ (epochUpdate e (losses e) (params e) s).stall
      · rw [if_pos hbreak]
        exact hup
      · rw [if_neg hbreak]
        exact ih _ _ hup

/-- C6: every run of at least one epoch ends with a checkpoint on disk — the
epoch-1 average validation loss always improves on the initial infinite best
loss, so epoch 1 writes a checkpoint, and later epochs never remove it. -/
theorem train_checkpoint_exists (losses : Nat → ℚ) (params : Nat → List ℚ)
    (patience maxEpochs : Nat) (h : 1 ≤ maxEpochs) :
    (train losses params patience maxEpochs).state.saves ≠ [] := by
  unfold train
  obtain ⟨k, rfl⟩ : ∃ k, maxEpochs = k + 1 := ⟨maxEpochs - 1, by omega⟩
  have himp : improves (losses 1) initState.best = true := rfl
  simp only [runEpochs, if_pos himp]
  have hup : (epochUpdate 1 (losses 1) (params 1) initState).saves ≠ [] := by
    unfold epochUpdate
    split
    · simp
    · simp_all [initState, himp]
  exact runEpochs_saves_nonempty losses params patience k 2 _ hup

/-- Witness for C6: a single-epoch run with constant loss leaves a
checkpoint. -/
theorem train_checkpoint_exists_witness :
    1 ≤ 1 ∧ (train (fun _ => 0) (fun _ => []) 10 1).state.saves ≠ [] :=
  ⟨le_refl 1, train_checkpoint_exists (fun _ => 0) (fun _ => []) 10 1 (le_refl 1)⟩

/-! ### Data loading batches and average loss — train.py lines 23-24 and 61-62. -/

/-- Model of iterating `DataLoader(ds, batch_size=bs, drop_last=True)`
(train.py line 23): consecutive chunks of exactly `bs` items; a shorter tail
is dropped.  (The train loader also shuffles; the number of batches, which is
all the averaging uses, is unaffected.) -/
def batchesDropLast {α : Type} (bs : Nat) (xs : List α) : List (List α) :=
  if h : 0 < bs ∧ bs ≤ xs.length then
    xs.take bs :: batchesDropLast bs (xs.drop bs)
  else []
termination_by xs.length
decreasing_by simp only [List.length_drop]; omega

/-- The per-epoch average (train.py lines 61-62): the per-batch losses summed
and divided by `max(batches, 1)`, so an empty epoch reports 0 instead of
raising a division error. -/
def avgLoss (batchLosses : List ℚ) : ℚ :=
  batchLosses.sum / max batchLosses.length 1

/-- C7: if a split is smaller than one batch, the drop-last loader yields
zero batches, the divisor `max(batches, 1)` is 1, and the reported average
loss is 0 — no division-by-zero is raised. -/
theorem avgLoss_zero_batches (bs : Nat) (split : List Sample)
    (lossOf : List Sample → ℚ) (hbs : 0 < bs) (hsmall : split.length < bs) :
    batchesDropLast bs split = [] ∧
    max ((batchesDropLast bs split).map lossOf).length 1 = 1 ∧
    avgLoss ((batchesDropLast bs split).map lossOf) = 0 := by
  have hempty : batchesDropLast bs split = [] := by
    unfold batchesDropLast
    rw [dif_neg]
    omega
  refine ⟨hempty, ?_, ?_⟩ <;> simp [hempty, avgLoss]

/-- Witness for C7: a 5-row train split with the default batch size 256
yields zero batches and average loss 0. -/
theorem avgLoss_zero_batches_witness :
    0 < 256 ∧ csvZeros5.length < 256 ∧
    batchesDropLast 256 csvZeros5 = [] ∧
    avgLoss ((batchesDropLast 256 csvZeros5).map (fun _ => 0)) = 0 := by
  have hlen : csvZeros5.length < 256 := by
    unfold csvZeros5
    rw [List.length_replicate]
    omega
  have h := avgLoss_zero_batches 256 csvZeros5 (fun _ => 0) (by omega) hlen
  exact ⟨by omega, hlen, h.1, h.2.2⟩

/-! ### Model — src/training/model.py, lines 8-22.

`SailingAI.net` is `Linear(19,128) → ReLU → Linear(128,64) → ReLU →
Linear(64,32) → ReLU → Linear(32,2)`; a batch of shape `(B, 19)` is embedded
as a list of `B` rows of 19 rationals, and each `nn.Linear` as its weight
matrix (one row per output unit) and bias vector. -/

/-- Dot product of two rational vectors. -/
def dot (xs ys : List ℚ) : ℚ := (List.zipWith (· * ·) xs ys).sum

/-- `nn.Linear` applied to one input vector: output unit `i` is
`⟨Wᵢ, x⟩ + bᵢ`. -/
def linear (W : List (List ℚ)) (b : List ℚ) (x : List ℚ) : List ℚ :=
  List.zipWith (fun row bi => dot row x + bi) W b

/-- `nn.ReLU()` on a vector. -/
def reluVec (x : List ℚ) : List ℚ := x.map (fun v => max v 0)

/-- The parameter tensors of `SailingAI.net` (model.py lines 11-19): the four
linear layers `net.0`, `net.2`, `net.4`, `net.6`. -/
structure SailingAIParams where
  w0 : List (List ℚ)
  b0 : List ℚ
  w2 : List (List ℚ)
  b2 : List ℚ
  w4 : List (List ℚ)
  b4 : List ℚ
  w6 : List (List ℚ)
  b6 : List ℚ

/-- The tensor shapes a freshly constructed `SailingAI()` has: widths
`INPUT_DIM → 128 → 64 → 32 → OUTPUT_DIM`. -/
def SailingAIParams.wellFormed (p : SailingAIParams) : Prop :=
  p.w0.length = 128 ∧ (∀ r ∈ p.w0, r.length = INPUT_DIM) ∧ p.b0.length = 128 ∧
  p.w2.length = 64 ∧ (∀ r ∈ p.w2, r.length = 128) ∧ p.b2.length = 64 ∧
  p.w4.length = 32 ∧ (∀ r ∈ p.w4, r.length = 64) ∧ p.b4.length = 32 ∧
  p.w6.length = OUTPUT_DIM ∧ (∀ r ∈ p.w6, r.length = 32) ∧
  p.b6.length = OUTPUT_DIM

/-- `SailingAI.forward` on one sample (model.py lines 12-19 and 21-22): four
affine layers with a ReLU after each of the first three and no activation
after the last. -/
def forwardRow (p : SailingAIParams) (x : List ℚ) : List ℚ :=
  linear p.w6 p.b6
    (reluVec (linear p.w4 p.b4
      (reluVec (linear p.w2 p.b2
        (reluVec (linear p.w0 p.b0 x))))))

/-- `SailingAI.forward` on a batch: the network applied to every row. -/
def forward (p : SailingAIParams) (batch : List (List ℚ)) : List (List ℚ) :=
  batch.map (forwardRow p)

theorem linear_length (W : List (List ℚ)) (b x : List ℚ) (n : Nat)
    (hW : W.length = n) (hb : b.length = n) : (linear W b x).length = n := by
  simp [linear, hW, hb]

/-- C8: for a freshly shaped parameter set and any batch of `B ≥ 1` rows of
width 19, the forward pass returns exactly `B` rows, each of width 2. -/
theorem forward_shape (p : SailingAIParams) (batch : List (List ℚ)) (B : Nat)
    (hp : p.wellFormed) (hB : batch.length = B)
    (hrows : ∀ x ∈ batch, x.length = 19) (hB1 : 1 ≤ B) :
    (forward p batch).length = B ∧ ∀ y ∈ forward p batch, y.length = 2 := by
  constructor
  · rw [forward, List.length_map, hB]
  · intro y hy
    rw [forward, List.mem_map] at hy
    obtain ⟨x, _, rfl⟩ := hy
    have h2 : OUTPUT_DIM = 2 := rfl
    rw [forwardRow]
    exact linear_length p.w6 p.b6 _ 2 (h2 ▸ hp.2.2.2.2.2.2.2.2.2.1)
      (h2 ▸ hp.2.2.2.2.2.2.2.2.2.2.2)

/-- All-zero parameters with the shapes of a fresh `SailingAI()`. -/
def zeroParams : SailingAIParams :=
  ⟨List.replicate 128 (List.replicate 19 0), List.replicate 128 0,
   List.replicate 64 (List.replicate 128 0), List.replicate 64 0,
   List.replicate 32 (List.replicate 64 0), List.replicate 32 0,
   List.replicate 2 (List.replicate 32 0), List.replicate 2 0⟩

/-- Witness for C8: the zero-parameter network on a one-row batch of width 19
returns one row of width 2. -/
theorem forward_shape_witness :
    zeroParams.wellFormed ∧
    [List.replicate 19 (0 : ℚ)].length = 1 ∧
    (forward zeroParams [List.replicate 19 (0 : ℚ)]).length = 1 ∧
    ∀ y ∈ forward zeroParams [List.replicate 19 (0 : ℚ)], y.length = 2 := by
  have hmem : ∀ (k m : Nat) (v : ℚ) (w : Nat), m = w →
      ∀ r ∈ List.replicate k (List.replicate m v), r.length = w := by
    intro k m v w hw r hr
    rw [List.eq_of_mem_replicate hr, List.length_replicate, hw]
  have hwf : zeroParams.wellFormed := by
    exact ⟨List.length_replicate _ _, hmem 128 19 0 INPUT_DIM rfl,
           List.length_replicate _ _,
           List.length_replicate _ _, hmem 64 128 0 128 rfl,
           List.length_replicate _ _,
           List.length_replicate _ _, hmem 32 64 0 64 rfl,
           List.length_replicate _ _,
           List.length_replicate _ _, hmem 2 32 0 32 rfl,
           List.length_replicate _ _⟩
  have hrows : ∀ x ∈ [List.replicate 19 (0 : ℚ)], x.length = 19 := by
    intro x hx
    rw [List.mem_singleton] at hx
    rw [hx, List.length_replicate]
  have h := forward_shape zeroParams [List.replicate 19 (0 : ℚ)] 1 hwf
    rfl hrows (le_refl 1)
  exact ⟨hwf, rfl, h.1, h.2⟩

/-! ### Exporter — src/training/export_onnx.py, lines 9-31.

```python
def export(args):
    model = SailingAI()
    model.load_state_dict(torch.load(args.checkpoint, map_location="cpu", weights_only=True))
    model.eval()
    dummy_input = torch.randn(1, INPUT_DIM)
    torch.onnx.export(model, dummy_input, args.output, ...)
```

A checkpoint is embedded as its name/shape table (tensor values are
irrelevant to the checks involved); `load_state_dict` runs in its default
strict mode, raising on any missing name, unexpected name, or shape mismatch,
before `torch.onnx.export` ever opens the output path.  An `Except.error`
result is the aborted run with no output file written. -/

/-- The name/shape table of a freshly constructed `SailingAI()` state dict. -/
def expectedStateDict : List (String × List Nat) :=
  [("net.0.weight", [128, 19]), ("net.0.bias", [128]),
   ("net.2.weight", [64, 128]), ("net.2.bias", [64]),
   ("net.4.weight", [32, 64]), ("net.4.bias", [32]),
   ("net.6.weight", [2, 32]), ("net.6.bias", [2])]

/-- Model of `model.load_state_dict(...)` in strict mode: every expected
parameter must be present with exactly the expected shape, and the checkpoint
may not hold any unexpected name. -/
def loadStateDictOk (ckpt : List (String × List Nat)) : Bool :=
  expectedStateDict.all (fun kv => ckpt.lookup kv.1 == some kv.2) &&
  ckpt.all (fun kv => (expectedStateDict.lookup kv.1).isSome)

/-- The ONNX artifact `torch.onnx.export` writes (export_onnx.py lines
14-28): input `features` of width `INPUT_DIM`, output `heading` of width
`OUTPUT_DIM`, batch axis dynamic on both. -/
structure OnnxArtifact where
  inputName : String
  outputName : String
  inputDim : Nat
  outputDim : Nat
  batchDynamic : Bool
deriving DecidableEq

/-- Embedding of `export(args)`: load the checkpoint into a fresh model,
then — only if the load succeeded — write the ONNX artifact. -/
def exportModel (ckpt : List (String × List Nat)) : Except String OnnxArtifact :=
  if loadStateDictOk ckpt then
    Except.ok ⟨"features", "heading", INPUT_DIM, OUTPUT_DIM, true⟩
  else
    Except.error "load_state_dict: parameter name or shape mismatch"

/-- C9: a checkpoint whose parameter names or shapes do not exactly match the
freshly constructed model makes the export abort on the load error, and no
output artifact is produced. -/
theorem exportModel_mismatch_no_output (ckpt : List (String × List Nat))
    (h : loadStateDictOk ckpt = false) :
    exportModel ckpt
        = Except.error "load_state_dict: parameter name or shape mismatch" ∧
    ∀ a : OnnxArtifact, exportModel ckpt ≠ Except.ok a := by
  have he : exportModel ckpt
      = Except.error "load_state_dict: parameter name or shape mismatch" := by
    unfold exportModel
    rw [h]
    simp
  exact ⟨he, fun a hcontra => by rw [he] at hcontra; exact Except.noConfusion hcontra⟩

/-- A checkpoint saved from a model whose first layer is 64 wide instead of
128 (the spec's example of a shape mismatch). -/
def badCheckpoint64 : List (String × List Nat) :=
  [("net.0.weight", [64, 19]), ("net.0.bias", [64]),
   ("net.2.weight", [64, 64]), ("net.2.bias", [64]),
   ("net.4.weight", [32, 64]), ("net.4.bias", [32]),
   ("net.6.weight", [2, 32]), ("net.6.bias", [2])]

/-- Witness for C9: the 64-wide first-layer checkpoint fails the strict load
and yields no artifact. -/
theorem exportModel_mismatch_no_output_witness :
    loadStateDictOk badCheckpoint64 = false ∧
    exportModel badCheckpoint64
        = Except.error "load_state_dict: parameter name or shape mismatch" := by
  have hbad : loadStateDictOk badCheckpoint64 = false := by decide
  exact ⟨hbad, (exportModel_mismatch_no_output badCheckpoint64 hbad).1⟩

end OnlyTactics
